import Mathlib

/-!
Shallow embedding of the launcher script `hwp-mcp/main.py`.

The script's observable behaviour is modelled as a trace of events:
standard-output lines, the single `sys.path.append`, the `from ... ...`
statement at module load, and the opaque effects of the delegated
`test_hwp_controller()` call.  The delegated call itself is external to the
repository, so it is a parameter: a pair of the trace it emits and an
`Option Unit` result (`none` models an uncaught exception).

Path arithmetic follows `posixpath`: `dirname` mirrors
`os.path.dirname` (everything up to the last slash, trailing slashes
stripped unless the head is all slashes), and `abspath` mirrors
`os.path.abspath` on the script's `__file__` value (an absolute path is kept,
a relative one is resolved against the current working directory; `normpath`
collapsing of `.`/`..` segments is not modelled since no claim depends on it).
-/

namespace HwpMcp

/-- One observable effect of the launcher process. -/
inductive Event where
  | out (s : String)
  | pathAppend (dir : String)
  | doImport (modName fn : String)
  | delegated (k : Nat)
deriving DecidableEq

/-- The start banner printed by `main()` (line 15 of the source). -/
def startBanner : String := "HwpController 테스트를 시작합니다."

/-- The completion banner printed by `main()` (line 21 of the source). -/
def doneBanner : String := "HwpController 테스트가 완료되었습니다."

/-- The sibling module named in the `from`-import (line 9). -/
def sideModuleName : String := "hwp_mcp_stdio_server"

/-- The delegated test function's name (line 9). -/
def testFnName : String := "test_hwp_controller"

/-- A computation that emits a trace and either returns (`some`) or raises
an uncaught exception (`none`). -/
abbrev Eff (α : Type) := List Event × Option α

/-- Sequencing with exception propagation: if the first step raises, the
second never runs and the first step's trace is the whole trace. -/
def effBind {α β : Type} (x : Eff α) (f : α → Eff β) : Eff β :=
  match x with
  | (tr, none) => (tr, none)
  | (tr, some a) => (tr ++ (f a).1, (f a).2)

/-- `print(s)`: one stdout line, always succeeds. -/
def printLine (s : String) : Eff Unit := ([Event.out s], some ())

/-- The body of `main()` (lines 11-21): start banner, the delegated
`test_hwp_controller()` call, completion banner, in that order. -/
def main (test : Eff Unit) : Eff Unit :=
  effBind (printLine startBanner) fun _ =>
  effBind test fun _ =>
  printLine doneBanner

/-- `os.path.dirname` on the character list of a posix path: the head up to
the last slash, with trailing slashes stripped unless the head is all
slashes; the empty string when the path has no slash. -/
def dirnameL (cs : List Char) : List Char :=
  if (cs.reverse.dropWhile (fun c => c != '/')).all (fun c => c == '/') then
    (cs.reverse.dropWhile (fun c => c != '/')).reverse
  else
    ((cs.reverse.dropWhile (fun c => c != '/')).dropWhile (fun c => c == '/')).reverse

/-- `os.path.dirname` on strings. -/
def dirname (p : String) : String := String.mk (dirnameL p.data)

/-- A posix path is absolute when it starts with a slash. -/
def isAbsoluteL (cs : List Char) : Bool :=
  match cs with
  | [] => false
  | c :: _ => c == '/'

/-- `os.path.isabs`. -/
def isAbsolute (p : String) : Bool := isAbsoluteL p.data

/-- `os.path.abspath(file)` evaluated in working directory `cwd`: an
absolute path is returned unchanged, a relative one is joined to `cwd`. -/
def abspath (cwd file : String) : String :=
  if isAbsolute file then file else cwd ++ "/" ++ file

/-- The observable outcome of loading the module: the final import search
path, the emitted trace, whether execution completed without an uncaught
exception, and whether `main()` was invoked. -/
structure Outcome where
  sysPath : List String
  trace : List Event
  ok : Bool
  mainCalled : Bool
deriving DecidableEq

/-- Loading the module `hwp-mcp/main.py` with `__name__ = name`:
lines 6-9 run unconditionally (resolve `project_root`, append it to
`sys.path`, import `test_hwp_controller`, which succeeds iff `importOk`),
then the guard on line 23 runs `main()` only when `name = "__main__"`. -/
def loadModule (name : String) (importOk : Bool) (fileAbs : String)
    (sysPath0 : List String) (test : Eff Unit) : Outcome :=
  let project_root := dirname fileAbs
  let sysPath := sysPath0 ++ [project_root]
  let preTrace := [Event.pathAppend project_root,
                   Event.doImport sideModuleName testFnName]
  if importOk then
    if name = "__main__" then
      { sysPath := sysPath
        trace := preTrace ++ (main test).1
        ok := (main test).2.isSome
        mainCalled := true }
    else
      { sysPath := sysPath, trace := preTrace, ok := true, mainCalled := false }
  else
    { sysPath := sysPath, trace := preTrace, ok := false, mainCalled := false }

/-- Executing the script directly from working directory `cwd`: the module
loads with `__name__ = "__main__"` and `__file__` resolved by `abspath`. -/
def runScript (cwd file : String) (importOk : Bool)
    (sysPath0 : List String) (test : Eff Unit) : Outcome :=
  loadModule "__main__" importOk (abspath cwd file) sysPath0 test

/-- Trace of `k` further invocations of `main()` after the module is
loaded (each invocation only prints and delegates; it never touches
`sys.path`). -/
def runMainTimes (k : Nat) (test : Eff Unit) : List Event :=
  match k with
  | 0 => []
  | Nat.succ k => (main test).1 ++ runMainTimes k test

/-- Whole-process state after loading the module and then calling `main()`
`k` more times: the final `sys.path` and the accumulated trace. -/
def processState (name : String) (importOk : Bool) (fileAbs : String)
    (sysPath0 : List String) (test : Eff Unit) (k : Nat) :
    List String × List Event :=
  ((loadModule name importOk fileAbs sysPath0 test).sysPath,
   (loadModule name importOk fileAbs sysPath0 test).trace ++ runMainTimes k test)

/-- The stdout lines of a trace, in order. -/
def outLines (tr : List Event) : List String :=
  tr.filterMap (fun e => match e with | Event.out s => some s | _ => none)

/-- Recognises a `sys.path.append` event. -/
def isPathAppend (e : Event) : Bool :=
  match e with
  | Event.pathAppend _ => true
  | _ => false

/-! ### Helper lemmas (shared; not claim theorems) -/

lemma main_eq_some (dtr : List Event) :
    main (dtr, some ()) =
      (Event.out startBanner :: (dtr ++ [Event.out doneBanner]), some ()) := by
  simp [main, effBind, printLine]

lemma main_eq_none (dtr : List Event) :
    main (dtr, none) = (Event.out startBanner :: dtr, none) := by
  simp [main, effBind, printLine]

lemma main_trace_eq (dtr : List Event) (res : Option Unit) :
    (main (dtr, res)).1 =
      Event.out startBanner ::
        (dtr ++ (if res.isSome then [Event.out doneBanner] else [])) := by
  cases res with
  | none => simp [main_eq_none]
  | some u => cases u; simp [main_eq_some]

lemma loadModule_sysPath (name : String) (importOk : Bool) (fileAbs : String)
    (sysPath0 : List String) (test : Eff Unit) :
    (loadModule name importOk fileAbs sysPath0 test).sysPath
      = sysPath0 ++ [dirname fileAbs] := by
  unfold loadModule
  by_cases hio : importOk <;> by_cases hn : name = "__main__" <;> simp [hio, hn]

lemma dropWhile_concat_getLast (p : Char → Bool) (l : List Char) (a : Char)
    (ha : p a = false) :
    (l ++ [a]).dropWhile p ≠ [] ∧ ((l ++ [a]).dropWhile p).getLast? = some a := by
  induction l with
  | nil => simp [List.dropWhile_cons, ha]
  | cons x xs ih =>
    rw [List.cons_append, List.dropWhile_cons]
    cases hx : p x with
    | true => simpa [hx] using ih
    | false =>
      refine ⟨by simp, ?_⟩
      simp only [Bool.false_eq_true, if_false]
      rw [← List.cons_append, List.getLast?_concat]

lemma dropWhile_getLast_eq (q : Char → Bool) (l : List Char)
    (h : l.dropWhile q ≠ []) : (l.dropWhile q).getLast? = l.getLast? := by
  induction l with
  | nil => simp at h
  | cons x xs ih =>
    rw [List.dropWhile_cons] at h ⊢
    cases hx : q x with
    | false => simp
    | true =>
      rw [hx, if_pos rfl] at h
      rw [if_pos rfl]
      have hxs : xs ≠ [] := by
        intro hh
        rw [hh] at h
        simp at h
      rw [ih h]
      cases xs with
      | nil => exact absurd rfl hxs
      | cons y ys => rw [List.getLast?_cons_cons]

lemma dropWhile_ne_nil_of_not_all (q : Char → Bool) (l : List Char)
    (h : l.all q = false) : l.dropWhile q ≠ [] := by
  intro hnil
  rw [List.dropWhile_eq_nil_iff] at hnil
  have hall : l.all q = true := List.all_eq_true.mpr hnil
  rw [hall] at h
  exact Bool.true_eq_false.mp h

lemma isAbsoluteL_head (cs : List Char) (h : cs.head? = some '/') :
    isAbsoluteL cs = true := by
  cases cs with
  | nil => simp at h
  | cons a l =>
    simp only [List.head?_cons, Option.some.injEq] at h
    simp [isAbsoluteL, h]

lemma dirnameL_absolute (t : List Char) :
    isAbsoluteL (dirnameL ('/' :: t)) = true := by
  unfold dirnameL
  have hrev : ('/' :: t).reverse = t.reverse ++ ['/'] := by
    rw [List.reverse_cons]
  rw [hrev]
  obtain ⟨hne, hlast⟩ :=
    dropWhile_concat_getLast (fun c => c != '/') t.reverse '/' (by decide)
  by_cases hall :
      ((t.reverse ++ ['/']).dropWhile (fun c => c != '/')).all (fun c => c == '/')
  · rw [if_pos hall]
    apply isAbsoluteL_head
    rw [List.head?_reverse]
    exact hlast
  · rw [if_neg hall]
    have hall' :
        ((t.reverse ++ ['/']).dropWhile (fun c => c != '/')).all (fun c => c == '/')
          = false := by
      simpa using hall
    have hne2 := dropWhile_ne_nil_of_not_all _ _ hall'
    apply isAbsoluteL_head
    rw [List.head?_reverse, dropWhile_getLast_eq _ _ hne2]
    exact hlast

lemma isAbsolute_dirname (p : String) (h : isAbsolute p = true) :
    isAbsolute (dirname p) = true := by
  unfold isAbsolute at h ⊢
  unfold dirname
  cases hd : p.data with
  | nil =>
    rw [hd] at h
    simp [isAbsoluteL] at h
  | cons a l =>
    rw [hd] at h
    have ha : a = '/' := by
      have := h
      unfold isAbsoluteL at this
      exact beq_iff_eq.mp this
    subst ha
    exact dirnameL_absolute l

lemma isAbsoluteL_append (cs ds : List Char) (h : isAbsoluteL cs = true) :
    isAbsoluteL (cs ++ ds) = true := by
  cases cs with
  | nil => simp [isAbsoluteL] at h
  | cons a l => simpa [isAbsoluteL] using h

lemma isAbsolute_abspath (cwd file : String) (h : isAbsolute cwd = true) :
    isAbsolute (abspath cwd file) = true := by
  unfold abspath
  cases hf : isAbsolute file with
  | true => simp [hf]
  | false =>
    rw [if_neg (by simp [hf])]
    unfold isAbsolute at h ⊢
    rw [String.data_append, String.data_append]
    rw [List.append_assoc]
    exact isAbsoluteL_append _ _ h

/-! ### Claims -/

/-- C1: when the delegated call returns normally, `main()`'s trace is
exactly start banner, then the delegate's own trace, then the completion
banner; the delegate is invoked exactly once; with a stub delegate the
stdout lines of a direct run are exactly the two banners, and the run
succeeds. -/
theorem main_success_trace :
    (∀ dtr : List Event,
      main (dtr, some ()) =
        (Event.out startBanner :: (dtr ++ [Event.out doneBanner]), some ())) ∧
    (main ([Event.delegated 0], some ())).1.count (Event.delegated 0) = 1 ∧
    outLines (runScript "/home/user" "/proj/main.py" true [] ([], some ())).trace
      = [startBanner, doneBanner] ∧
    (runScript "/home/user" "/proj/main.py" true [] ([], some ())).ok = true := by
  refine ⟨main_eq_some, ?_, ?_, ?_⟩ <;> decide

/-- C2: when the delegated call raises, `main()` propagates the error: the
result is `none`, the trace is the start banner followed by the delegate's
partial trace only, and `main()` itself contributes no completion-banner
line (the count of that line is unchanged from the delegate's trace). -/
theorem main_failure_trace (dtr : List Event) :
    main (dtr, none) = (Event.out startBanner :: dtr, none) ∧
    (main (dtr, none)).1.count (Event.out doneBanner)
      = dtr.count (Event.out doneBanner) := by
  refine ⟨main_eq_none dtr, ?_⟩
  rw [main_eq_none]
  rw [List.count_cons]
  simp only [List.count]
  have h : (Event.out startBanner == Event.out doneBanner) = false := by decide
  simp [h]

/-- C3: with the sibling import succeeding, `main()` runs iff
`__name__ = "__main__"`; loading as a library (any other `__name__`) emits
neither banner nor any delegated event — its trace is only the two
load-time steps. -/
theorem guard_main_iff (name fileAbs : String) (sysPath0 : List String)
    (dtr : List Event) (res : Option Unit) (h : name ≠ "__main__") :
    (loadModule "__main__" true fileAbs sysPath0 (dtr, res)).mainCalled = true ∧
    (loadModule name true fileAbs sysPath0 (dtr, res)).mainCalled = false ∧
    (loadModule name true fileAbs sysPath0 (dtr, res)).trace
      = [Event.pathAppend (dirname fileAbs),
         Event.doImport sideModuleName testFnName] ∧
    outLines (loadModule name true fileAbs sysPath0 (dtr, res)).trace = [] := by
  refine ⟨?_, ?_, ?_, ?_⟩ <;>
    simp [loadModule, h, outLines, sideModuleName, testFnName]

theorem guard_main_iff_witness :
    (loadModule "__main__" true "/proj/main.py" [] ([], some ())).mainCalled = true ∧
    (loadModule "hwp_main" true "/proj/main.py" [] ([], some ())).mainCalled = false ∧
    (loadModule "hwp_main" true "/proj/main.py" [] ([], some ())).trace
      = [Event.pathAppend (dirname "/proj/main.py"),
         Event.doImport sideModuleName testFnName] ∧
    outLines (loadModule "hwp_main" true "/proj/main.py" [] ([], some ())).trace = [] :=
  guard_main_iff "hwp_main" "/proj/main.py" [] [] (some ()) (by decide)

/-- C4 counterexample: loading the module as a library
(`__name__ = "hwp_main"`, not the top-level program, so `main()` is not
called) nevertheless performs the three load-time steps: `sys.path` is
extended with the script's directory and the sibling import is executed.
This refutes the claim that the sequence runs only under direct
execution. -/
theorem load_steps_not_guarded_cex :
    (loadModule "hwp_main" true "/proj/main.py" [] ([], some ())).mainCalled = false ∧
    (loadModule "hwp_main" true "/proj/main.py" [] ([], some ())).sysPath = ["/proj"] ∧
    (loadModule "hwp_main" true "/proj/main.py" [] ([], some ())).trace
      = [Event.pathAppend "/proj",
         Event.doImport sideModuleName testFnName] := by
  refine ⟨?_, ?_, ?_⟩ <;> decide

/-- C4 amended: the three-step sequence (resolve the script's directory,
append it to `sys.path`, import the sibling test function) is performed at
every module load, whether the script is run directly or imported as a
library; only the `main()` invocation is guarded. -/
theorem load_steps_always (name fileAbs : String) (importOk : Bool)
    (sysPath0 : List String) (test : Eff Unit) :
    (loadModule name importOk fileAbs sysPath0 test).sysPath
      = sysPath0 ++ [dirname fileAbs] ∧
    (loadModule name importOk fileAbs sysPath0 test).trace.take 2
      = [Event.pathAppend (dirname fileAbs),
         Event.doImport sideModuleName testFnName] := by
  unfold loadModule
  by_cases hio : importOk <;> by_cases hn : name = "__main__" <;> simp [hio, hn]

/-- C8: the launcher appends its directory to the END of `sys.path`, so
every pre-existing entry keeps precedence: if some earlier directory
already resolves the module name (`has` picks the first directory
containing it), resolution still finds that earlier directory, shadowing
the sibling. -/
theorem append_keeps_precedence (name fileAbs : String) (importOk : Bool)
    (sysPath0 : List String) (test : Eff Unit) (has : String → Bool)
    (d : String) (h : sysPath0.find? has = some d) :
    (loadModule name importOk fileAbs sysPath0 test).sysPath
      = sysPath0 ++ [dirname fileAbs] ∧
    (loadModule name importOk fileAbs sysPath0 test).sysPath.find? has = some d := by
  have hsp : (loadModule name importOk fileAbs sysPath0 test).sysPath
      = sysPath0 ++ [dirname fileAbs] := by
    unfold loadModule
    by_cases hio : importOk <;> by_cases hn : name = "__main__" <;> simp [hio, hn]
  refine ⟨hsp, ?_⟩
  rw [hsp, List.find?_append, h, Option.or]

theorem append_keeps_precedence_witness :
    (loadModule "__main__" true "/proj/main.py" ["/lib"] ([], some ())).sysPath
      = ["/lib"] ++ [dirname "/proj/main.py"] ∧
    (loadModule "__main__" true "/proj/main.py" ["/lib"]
        ([], some ())).sysPath.find? (fun s => s == "/lib") = some "/lib" :=
  append_keeps_precedence "__main__" "/proj/main.py" true ["/lib"] ([], some ())
    (fun s => s == "/lib") "/lib" (by decide)

/-- C9: the sibling import runs at module load, before `main()` can; if it
fails, only the two load-time events have happened: no stdout line was
written (in particular no start banner), `main()` was never invoked, and
the load ends in error. -/
theorem import_failure_before_banner (name fileAbs : String)
    (sysPath0 : List String) (test : Eff Unit) :
    (loadModule name false fileAbs sysPath0 test).trace
      = [Event.pathAppend (dirname fileAbs),
         Event.doImport sideModuleName testFnName] ∧
    outLines (loadModule name false fileAbs sysPath0 test).trace = [] ∧
    (loadModule name false fileAbs sysPath0 test).ok = false ∧
    (loadModule name false fileAbs sysPath0 test).mainCalled = false := by
  refine ⟨?_, ?_, ?_, ?_⟩ <;> simp [loadModule, outLines]

/-- C5: the entry appended to `sys.path` by a direct run is exactly the
directory of the resolved script (absolute when the working directory is),
and however many further `main()` calls follow in the process, the search
path never changes again. -/
theorem project_root_invariant (cwd file : String) (importOk : Bool)
    (sysPath0 : List String) (test : Eff Unit) (k : Nat)
    (h : isAbsolute cwd = true) :
    (runScript cwd file importOk sysPath0 test).sysPath
      = sysPath0 ++ [dirname (abspath cwd file)] ∧
    isAbsolute (dirname (abspath cwd file)) = true ∧
    (processState "__main__" importOk (abspath cwd file) sysPath0 test k).1
      = (runScript cwd file importOk sysPath0 test).sysPath := by
  refine ⟨loadModule_sysPath _ _ _ _ _, ?_, rfl⟩
  exact isAbsolute_dirname _ (isAbsolute_abspath cwd file h)

theorem project_root_invariant_witness :
    (runScript "/home/user" "main.py" true [] ([], some ())).sysPath
      = [] ++ [dirname (abspath "/home/user" "main.py")] ∧
    isAbsolute (dirname (abspath "/home/user" "main.py")) = true ∧
    (processState "__main__" true (abspath "/home/user" "main.py") []
        ([], some ()) 3).1
      = (runScript "/home/user" "main.py" true [] ([], some ())).sysPath :=
  project_root_invariant "/home/user" "main.py" true [] ([], some ()) 3 (by decide)

/-- C6: the launcher's behaviour depends only on the script's resolved
location, not on the working directory: two launches whose resolved script
paths agree produce identical outcomes, and the directory appended is the
resolved script's directory. -/
theorem cwd_independence (cwd1 cwd2 file1 file2 : String) (importOk : Bool)
    (sysPath0 : List String) (test : Eff Unit)
    (h : abspath cwd1 file1 = abspath cwd2 file2) :
    runScript cwd1 file1 importOk sysPath0 test
      = runScript cwd2 file2 importOk sysPath0 test ∧
    (runScript cwd1 file1 importOk sysPath0 test).sysPath
      = sysPath0 ++ [dirname (abspath cwd1 file1)] := by
  refine ⟨?_, loadModule_sysPath _ _ _ _ _⟩
  unfold runScript
  rw [h]

theorem cwd_independence_witness :
    runScript "/x" "/proj/main.py" true [] ([], some ())
      = runScript "/y" "/proj/main.py" true [] ([], some ()) ∧
    (runScript "/x" "/proj/main.py" true [] ([], some ())).sysPath
      = [] ++ [dirname (abspath "/x" "/proj/main.py")] :=
  cwd_independence "/x" "/y" "/proj/main.py" "/proj/main.py" true [] ([], some ())
    (by decide)

/-- C7: the launcher has no effects beyond the modelled ones: its only
state change is appending the script directory to `sys.path`, and every
event in its trace is the path append, the sibling import, one of the two
banner lines, or an event of the delegated call itself — no configuration,
environment, or persisted state is touched. -/
theorem launcher_frame (name fileAbs : String) (importOk : Bool)
    (sysPath0 : List String) (dtr : List Event) (res : Option Unit) :
    (loadModule name importOk fileAbs sysPath0 (dtr, res)).sysPath
      = sysPath0 ++ [dirname fileAbs] ∧
    ∀ e ∈ (loadModule name importOk fileAbs sysPath0 (dtr, res)).trace,
      e = Event.pathAppend (dirname fileAbs) ∨
      e = Event.doImport sideModuleName testFnName ∨
      e = Event.out startBanner ∨ e = Event.out doneBanner ∨ e ∈ dtr := by
  refine ⟨loadModule_sysPath _ _ _ _ _, ?_⟩
  intro e he
  unfold loadModule at he
  by_cases hio : importOk <;> by_cases hn : name = "__main__" <;>
    simp only [hio, hn, if_true, if_false, Bool.false_eq_true] at he
  · rw [main_trace_eq] at he
    cases res with
    | none =>
      simp only [Option.isSome_none, Bool.false_eq_true, if_false,
        List.append_nil, List.mem_append, List.mem_cons,
        List.mem_singleton, List.not_mem_nil] at he
      tauto
    | some u =>
      simp only [Option.isSome_some, if_true, List.mem_append, List.mem_cons,
        List.mem_singleton, List.not_mem_nil] at he
      tauto
  all_goals
    simp only [List.mem_cons, List.mem_singleton, List.not_mem_nil, or_false] at he
  all_goals tauto

theorem launcher_frame_witness :
    Event.out startBanner = Event.pathAppend (dirname "/proj/main.py") ∨
    Event.out startBanner = Event.doImport sideModuleName testFnName ∨
    Event.out startBanner = Event.out startBanner ∨
    Event.out startBanner = Event.out doneBanner ∨
    Event.out startBanner ∈ ([] : List Event) :=
  (launcher_frame "__main__" "/proj/main.py" true [] [] (some ())).2
    (Event.out startBanner) (by decide)

lemma main_countP_pathAppend (dtr : List Event) (res : Option Unit) :
    ((main (dtr, res)).1).countP isPathAppend = dtr.countP isPathAppend := by
  rw [main_trace_eq]
  cases res with
  | none => simp [List.countP_cons, isPathAppend]
  | some u => simp [List.countP_cons, List.countP_append, isPathAppend]

lemma runMainTimes_countP (k : Nat) (dtr : List Event) (res : Option Unit)
    (h : dtr.countP isPathAppend = 0) :
    (runMainTimes k (dtr, res)).countP isPathAppend = 0 := by
  induction k with
  | zero => simp [runMainTimes]
  | succ n ih =>
    simp [runMainTimes, List.countP_append, main_countP_pathAppend, h, ih]

/-- C10: a process performs the `sys.path.append` exactly once, at module
load; further `main()` invocations (whose delegate does not itself append
to the path) add no path-append event, and the final search path is the
initial one plus the single script-directory entry, for every number of
calls. -/
theorem path_append_once (name fileAbs : String) (importOk : Bool)
    (sysPath0 : List String) (dtr : List Event) (res : Option Unit) (k : Nat)
    (h : dtr.countP isPathAppend = 0) :
    ((processState name importOk fileAbs sysPath0 (dtr, res) k).2).countP
        isPathAppend = 1 ∧
    (processState name importOk fileAbs sysPath0 (dtr, res) k).1
      = sysPath0 ++ [dirname fileAbs] := by
  refine ⟨?_, loadModule_sysPath _ _ _ _ _⟩
  unfold processState
  rw [List.countP_append, runMainTimes_countP k dtr res h]
  unfold loadModule
  by_cases hio : importOk <;> by_cases hn : name = "__main__" <;>
    simp [hio, hn, List.countP_append, List.countP_cons,
      main_countP_pathAppend, isPathAppend, h]

theorem path_append_once_witness :
    ((processState "__main__" true "/proj/main.py" [] ([], some ()) 2).2).countP
        isPathAppend = 1 ∧
    (processState "__main__" true "/proj/main.py" [] ([], some ()) 2).1
      = [] ++ [dirname "/proj/main.py"] :=
  path_append_once "__main__" "/proj/main.py" true [] [] (some ()) 2 (by decide)

end HwpMcp
